import Mathlib

/-!
# Amber — verification of the ingestion-hardening spec and frontend utilities

The repository ships documentation of a production-hardening ingestion layer
(checkpointed ingestion, retrying HTTP client, circuit breaker, embed tokens);
the implementation modules themselves (`checkpoint.py`, `http_retry_client.py`,
`x_ingestion_service.py`, `embed_token_service.py`) are not present in the
source tree, only their documentation.  Those components are therefore modelled
from the spec.  The frontend TypeScript that is present
(`useSocialMediaTracker.ts`, the Devanagari date formatter, `newsFetcher.ts`)
is embedded directly from the source.
-/

namespace Amber

/-! ## Ingestion orchestrator (modelled from the spec)

Modelled from the spec: `x_ingestion_service.py` is absent from the source
tree.  §4.4 of the spec: `ingest(streamKey, fetcher, options{dryRun, limit})`
reads the checkpoint, fetches a page, validates required fields (external ID,
timestamp, content), deduplicates by (external ID, platform) against the
persisted store, persists new valid items unless `dryRun`, and advances the
checkpoint to the new cursor only after successful persistence of the whole
batch. Storage failures are fatal for the pass and leave the checkpoint
unchanged. -/

/-- A raw external item as returned by a fetcher; required fields may be
missing, in which case validation fails. -/
structure RawItem where
  externalId : Option String
  platform : String
  timestamp : Option Nat
  content : Option String
  deriving Repr, DecidableEq

/-- A validated, normalized ingested item. -/
structure Item where
  externalId : String
  platform : String
  timestamp : Nat
  content : String
  deriving Repr, DecidableEq

/-- Validation of required fields (external ID, timestamp, content). -/
def RawItem.validate (r : RawItem) : Option Item :=
  match r.externalId, r.timestamp, r.content with
  | some eid, some ts, some c => some ⟨eid, r.platform, ts, c⟩
  | _, _, _ => none

/-- The deduplication key: (platform, external ID). -/
def Item.key (i : Item) : String × String := (i.platform, i.externalId)

/-- Persistence-collaborator membership test (`existsByExternalId`). -/
def existsByExternalId (persisted : List Item) (platform externalId : String) : Bool :=
  persisted.any fun i => i.platform == platform && i.externalId == externalId

/-- Number of persisted items carrying a given dedup key. -/
def countKey (l : List Item) (k : String × String) : Nat :=
  (l.filter fun i => i.key == k).length

/-- Outcome of validating and deduplicating one batch: the new items to
persist (in order), and the `failed` / `skipped` counters. -/
structure BatchSplit where
  newItems : List Item
  failed : Nat
  skipped : Nat
  deriving Repr, DecidableEq

/-- One step of batch classification: invalid items count as `failed`;
items whose key is already persisted, or already accepted earlier in the same
batch, count as `skipped`; the rest are accepted for persistence. -/
def classifyStep (persisted : List Item) (acc : BatchSplit) (r : RawItem) : BatchSplit :=
  match r.validate with
  | none => { acc with failed := acc.failed + 1 }
  | some i =>
    if existsByExternalId persisted i.platform i.externalId
        || existsByExternalId acc.newItems i.platform i.externalId then
      { acc with skipped := acc.skipped + 1 }
    else
      { acc with newItems := acc.newItems ++ [i] }

/-- Classify a whole batch against the persisted store. -/
def classify (persisted : List Item) (raws : List RawItem) : BatchSplit :=
  raws.foldl (classifyStep persisted) ⟨[], 0, 0⟩

/-- Errors surfaced by an ingestion pass to the caller. -/
inductive IngestError
  | storage
  deriving Repr, DecidableEq

/-- The counters returned by `ingest`. -/
structure IngestCounts where
  processed : Nat
  failed : Nat
  skipped : Nat
  deriving Repr, DecidableEq

/-- The per-stream durable state: checkpoint cursor and persisted items. -/
structure StreamState where
  checkpoint : Option String
  persisted : List Item
  deriving Repr, DecidableEq

/-- Modelled from the spec: one ingestion pass (`ingest`) for one stream.
`raws` and `newCursor` are the fetcher's page for the current cursor;
`persistOk` / `checkpointOk` say whether the storage collaborator succeeds at
the persistence step and at the checkpoint write.  Steps: classify (validate +
dedup); on `dryRun` stop there; otherwise persist the whole batch, then — as
the last step — advance the checkpoint.  A storage failure aborts the pass
with `IngestError.storage` and never advances the checkpoint. -/
def ingest (s : StreamState) (raws : List RawItem) (newCursor : String)
    (dryRun persistOk checkpointOk : Bool) :
    Except IngestError IngestCounts × StreamState :=
  let b := classify s.persisted raws
  let counts : IngestCounts := ⟨b.newItems.length, b.failed, b.skipped⟩
  if dryRun then
    (.ok counts, s)
  else if !persistOk then
    (.error .storage, s)
  else
    let s1 : StreamState := { s with persisted := s.persisted ++ b.newItems }
    if !checkpointOk then (.error .storage, s1)
    else (.ok counts, { s1 with checkpoint := some newCursor })

/-- The inputs of one ingestion pass over a stream. -/
structure PassInput where
  raws : List RawItem
  newCursor : String
  dryRun : Bool
  persistOk : Bool
  checkpointOk : Bool

/-- Run a sequence of ingestion passes, threading the stream state. -/
def runPasses (s : StreamState) (ps : List PassInput) : StreamState :=
  ps.foldl (fun st p => (ingest st p.raws p.newCursor p.dryRun p.persistOk p.checkpointOk).2) s

/-! ## Circuit breaker (modelled from the spec)

Modelled from the spec: the circuit-breaker module wrapping the retrying HTTP
client is absent from the source tree; only
`docs/PRODUCTION_HARDENING.md` describes it.  §4.3 of the spec: states
`closed` / `open` / `half-open`; `closed` counts consecutive failures and
opens at `failureThreshold` (default 5) recording `openedAt`; `open` rejects
every request with `CircuitOpenError` until `openedAt + cooldown` (default
5 minutes) elapses, then one trial passes through (`half-open`); a successful
trial closes the breaker and resets the counter, a failed trial re-opens it
resetting `openedAt`; any success while closed resets the counter. -/

/-- The three breaker states. -/
inductive CBState
  | closed
  | opened
  | halfOpen
  deriving Repr, DecidableEq

/-- Breaker configuration plus mutable state. Times are in seconds. -/
structure Breaker where
  failureThreshold : Nat
  cooldown : Nat
  state : CBState
  failures : Nat
  openedAt : Nat
  deriving Repr, DecidableEq

/-- A fresh breaker: `closed`, zero consecutive failures. -/
def Breaker.init (failureThreshold cooldown : Nat) : Breaker :=
  ⟨failureThreshold, cooldown, .closed, 0, 0⟩

/-- The defaults: `failureThreshold` 5, cooldown 5 minutes. -/
def defaultBreaker : Breaker := Breaker.init 5 300

/-- Admission control: may a request proceed right now?  `closed` admits;
`opened` admits exactly when the cooldown has elapsed, moving to `halfOpen`
(the admitted request is the single trial); `halfOpen` rejects further
requests while the trial is outstanding. -/
def Breaker.tryAcquire (b : Breaker) (now : Nat) : Bool × Breaker :=
  match b.state with
  | .closed => (true, b)
  | .opened =>
    if b.openedAt + b.cooldown ≤ now then (true, { b with state := .halfOpen })
    else (false, b)
  | .halfOpen => (false, b)

/-- Record a successful admitted request: close and reset the counter. -/
def Breaker.onSuccess (b : Breaker) : Breaker :=
  { b with state := .closed, failures := 0 }

/-- Record a failed admitted request: a failed trial re-opens immediately
resetting `openedAt`; a failure while closed increments the counter and opens
at the threshold. -/
def Breaker.onFailure (b : Breaker) (now : Nat) : Breaker :=
  match b.state with
  | .halfOpen => { b with state := .opened, openedAt := now }
  | _ =>
    if b.failureThreshold ≤ b.failures + 1 then
      { b with state := .opened, failures := b.failures + 1, openedAt := now }
    else
      { b with failures := b.failures + 1 }

/-- What one guarded call produced: `circuitOpenError` means the wrapped
client was never invoked; `completed s` means it was invoked and reported
success `s` (a failure here is already retry-exhausted at the client level). -/
inductive CallOutcome
  | circuitOpenError
  | completed (success : Bool)
  deriving Repr, DecidableEq

/-- One request through the breaker.  `clientSuccess` is what the wrapped
retrying client would report if invoked; it is consulted only when the
breaker admits the request. -/
def Breaker.call (b : Breaker) (now : Nat) (clientSuccess : Bool) : CallOutcome × Breaker :=
  let (admitted, b1) := b.tryAcquire now
  if admitted then
    if clientSuccess then (.completed true, b1.onSuccess)
    else (.completed false, b1.onFailure now)
  else
    (.circuitOpenError, b1)

/-- Feed `k` consecutive failing requests, all at time `now`. -/
def Breaker.failMany (b : Breaker) (now : Nat) : Nat → Breaker
  | 0 => b
  | k + 1 => ((b.failMany now k).call now false).2

/-! ## Retrying HTTP client delays (modelled from the spec)

Modelled from the spec: `http_retry_client.py` is absent from the source
tree.  §4.2 of the spec: exponential backoff
`delay = min(maxDelay, baseDelay * 2^attempt)` (base 500ms, max 60s,
`maxRetries` default 6), perturbed by full jitter (uniform in `[0, delay]`);
on HTTP 429 a `Retry-After` header overrides the computed backoff delay,
still capped at `maxDelay`.  All delays in milliseconds. -/

/-- Retry configuration. -/
structure RetryOptions where
  maxRetries : Nat
  baseDelayMs : Nat
  maxDelayMs : Nat
  deriving Repr, DecidableEq

/-- The defaults: 6 retries, base 500ms, max 60s. -/
def defaultRetryOptions : RetryOptions := ⟨6, 500, 60000⟩

/-- The exponential backoff formula, before jitter. -/
def backoffDelay (o : RetryOptions) (attempt : Nat) : Nat :=
  min o.maxDelayMs (o.baseDelayMs * 2 ^ attempt)

/-- The delay actually waited before the next attempt.  `retryAfterMs` is the
parsed `Retry-After` header of a 429 response when present; `jitterSample` is
the uniformly drawn jitter value, clamped into `[0, backoffDelay]`.  A
present `Retry-After` overrides the backoff formula (and its jitter), capped
at `maxDelay`. -/
def nextRetryDelay (o : RetryOptions) (attempt : Nat) (retryAfterMs : Option Nat)
    (jitterSample : Nat) : Nat :=
  match retryAfterMs with
  | some ra => min o.maxDelayMs ra
  | none => min jitterSample (backoffDelay o attempt)

/-! ## Embed token issuer (modelled from the spec)

Modelled from the spec: `embed_token_service.py` is absent from the source
tree.  §4.5 of the spec: `issue(dashboardId, allowedOrigins, ttlSeconds=60)`
builds claims `(dashboardId, allowedOrigins, iat, exp = iat + ttlSeconds)`,
signs them with HMAC-SHA256 under the server secret and returns the token
plus `expiresAt`; `validate(token, requestOrigin)` verifies the signature,
checks `now < exp`, checks `requestOrigin ∈ allowedOrigins`, and fails
distinctly for signature mismatch, expiry and origin mismatch.  The MAC is
abstracted as a parameter `mac` (the server-held secret is folded into it);
the round-trip properties hold for every `mac`. -/

/-- The signed claims of an embed token. Times are in seconds. -/
structure EmbedClaims where
  dashboardId : String
  allowedOrigins : List String
  iat : Nat
  exp : Nat
  deriving Repr, DecidableEq

/-- A token: claims plus the signature over them. -/
structure EmbedToken where
  claims : EmbedClaims
  sig : String
  deriving Repr, DecidableEq

/-- What `issue` returns: the token plus `expiresAt` for caller convenience. -/
structure IssueResult where
  token : EmbedToken
  expiresAt : Nat
  deriving Repr, DecidableEq

/-- Mint a token at time `now`. -/
def issue (mac : EmbedClaims → String) (dashboardId : String)
    (allowedOrigins : List String) (ttlSeconds : Nat) (now : Nat) : IssueResult :=
  let c : EmbedClaims := ⟨dashboardId, allowedOrigins, now, now + ttlSeconds⟩
  ⟨⟨c, mac c⟩, now + ttlSeconds⟩

/-- The distinct validation failure reasons. -/
inductive TokenError
  | signatureMismatch
  | expired
  | originMismatch
  deriving Repr, DecidableEq

/-- Validate a token at time `now` for `requestOrigin`: signature first, then
expiry (`now < exp`), then origin membership. -/
def validate (mac : EmbedClaims → String) (tok : EmbedToken)
    (requestOrigin : String) (now : Nat) : Except TokenError EmbedClaims :=
  if tok.sig = mac tok.claims then
    if now < tok.claims.exp then
      if requestOrigin ∈ tok.claims.allowedOrigins then .ok tok.claims
      else .error .originMismatch
    else .error .expired
  else .error .signatureMismatch

/-! ## Frontend hook `useSocialMediaTracker` (from
`src/nextjs-app/src/hooks/useSocialMediaTracker.ts`)

The hook keeps `posts : SocialMediaPost[]` state, initially `[]`.
`sortPosts` sorts a copy descending by `new Date(timestamp).getTime()`;
`loadDashboard` stores `sortPosts(data.posts)`; `fetchPostsForLeader`
stores `sortPosts([...prev.filter(p => p.leaderId !== leaderId), ...data.posts])`;
`removeLeader` stores `prev.filter(p => p.leaderId !== leaderId)`.
Timestamps are embedded as the `getTime()` value (a number). -/

/-- The fields of a post the hook's state transitions inspect. -/
structure SocialMediaPost where
  id : String
  leaderId : String
  timestamp : Nat
  deriving Repr, DecidableEq

/-- The comparator order of `sortPosts`: newest (largest timestamp) first. -/
def newestFirst (a b : SocialMediaPost) : Prop := b.timestamp ≤ a.timestamp

instance : DecidableRel newestFirst := fun a b => Nat.decLe b.timestamp a.timestamp

instance : IsTotal SocialMediaPost newestFirst :=
  ⟨fun a b => Nat.le_total b.timestamp a.timestamp⟩

instance : IsTrans SocialMediaPost newestFirst :=
  ⟨fun _ _ _ h1 h2 => Nat.le_trans h2 h1⟩

/-- `sortPosts`: sort a copy of the list newest-first. -/
def sortPosts (items : List SocialMediaPost) : List SocialMediaPost :=
  List.insertionSort newestFirst items

/-- The posts list is in newest-first order. -/
def SortedNewestFirst (l : List SocialMediaPost) : Prop :=
  List.Sorted newestFirst l

/-- The hook operations that complete and update the `posts` state.
`loadDashboard` (also reached from `addLeader` via `loadDashboard(false)`)
carries the fetched dashboard posts; `fetchPostsForLeader` carries the
refreshed posts of one leader; `removeLeader` carries the removed id. -/
inductive HookOp
  | loadDashboard (fetched : List SocialMediaPost)
  | fetchPostsForLeader (leaderId : String) (fetched : List SocialMediaPost)
  | removeLeader (leaderId : String)

/-- The `posts` state transition of each completed hook operation. -/
def applyOp (posts : List SocialMediaPost) : HookOp → List SocialMediaPost
  | .loadDashboard fetched => sortPosts fetched
  | .fetchPostsForLeader lid fetched =>
      sortPosts (posts.filter (fun p => p.leaderId ≠ lid) ++ fetched)
  | .removeLeader lid => posts.filter (fun p => p.leaderId ≠ lid)

/-- The `posts` state after a sequence of completed hook operations, starting
from the initial `useState([])`. -/
def hookPosts (ops : List HookOp) : List SocialMediaPost :=
  ops.foldl applyOp []

/-! ## Devanagari date formatting (from the localization utility source)

`toDevanagariDigits` is `value.replace(/[0-9]/g, d => DEVANAGARI_DIGITS[d])`;
`format_date_in_hindi` renders
`toDevanagariDigits(pad2(getDate())) + " " + HINDI_MONTHS[getMonth()] + " " +
toDevanagariDigits(String(getFullYear()))`.  Strings are embedded as their
lists of characters. -/

/-- The `DEVANAGARI_DIGITS` table. -/
def DEVANAGARI_DIGITS : List (Char × Char) :=
  [('0', '०'), ('1', '१'), ('2', '२'), ('3', '३'), ('4', '४'),
   ('5', '५'), ('6', '६'), ('7', '७'), ('8', '८'), ('9', '९')]

/-- The regex class `[0-9]`: an ASCII digit. -/
def isAsciiDigit (c : Char) : Bool :=
  DEVANAGARI_DIGITS.any fun kv => kv.1 == c

/-- The per-character action of `replace(/[0-9]/g, d => DEVANAGARI_DIGITS[d])`:
a matching character is looked up in the table, any other is left alone. -/
def replaceDigit (c : Char) : Char :=
  match (DEVANAGARI_DIGITS.lookup c) with
  | some d => d
  | none => c

/-- `toDevanagariDigits`. -/
def toDevanagariDigits (s : List Char) : List Char :=
  s.map replaceDigit

/-- The `HINDI_MONTHS` array (index 0 = January). -/
def HINDI_MONTHS : List (List Char) :=
  ["जनवरी".data, "फ़रवरी".data, "मार्च".data, "अप्रैल".data, "मई".data, "जून".data,
   "जुलाई".data, "अगस्त".data, "सितंबर".data, "अक्तूबर".data, "नवंबर".data, "दिसंबर".data]

/-- The `Date` accessors the formatter uses; `getMonth` is the 0-based month
(a real JS `Date` always yields a value in `0..11`). -/
structure JsDate where
  getDate : Nat
  getMonth : Nat
  getFullYear : Nat
  deriving Repr, DecidableEq

/-- `String(n)`: the decimal digits of a number. -/
def natChars (n : Nat) : List Char := (Nat.repr n).data

/-- `padStart(2, '0')`. -/
def pad2 (s : List Char) : List Char :=
  if 2 ≤ s.length then s else List.replicate (2 - s.length) '0' ++ s

/-- `format_date_in_hindi`.  An out-of-range month index (unreachable for a
real JS `Date`) renders as the empty month name. -/
def format_date_in_hindi (date : JsDate) : List Char :=
  toDevanagariDigits (pad2 (natChars date.getDate)) ++ [' ']
    ++ HINDI_MONTHS.getD date.getMonth [] ++ [' ']
    ++ toDevanagariDigits (natChars date.getFullYear)

/-! ## Deprecated frontend module `newsFetcher`
(from `src/nextjs-app/src/lib/newsFetcher.ts`)

Each exported function unconditionally throws; the embeddings return
`Except JsError` and are constantly `.error`. -/

/-- A thrown JavaScript `Error` with its message. -/
inductive JsError
  | error (message : String)
  deriving Repr, DecidableEq

/-- `fetchArticlesForLeader`: throws unconditionally. -/
def fetchArticlesForLeader (_ : Unit) : Except JsError Empty :=
  .error (.error "fetchArticlesForLeader is deprecated. Use backend API /api/leaders/:id/refresh")

/-- `buildPostsFromArticles`: throws unconditionally. -/
def buildPostsFromArticles (_ : Unit) : Except JsError (List SocialMediaPost) :=
  .error (.error "buildPostsFromArticles is deprecated. Backend provides sentiment + mapping")

/-- `fetchLiveDashboard`: throws unconditionally. -/
def fetchLiveDashboard (_ : Unit) : Except JsError Empty :=
  .error (.error "fetchLiveDashboard is deprecated. Use backend API /api/dashboard")

/-! ## Theorems -/

/-- C10: every call to any of the three exported functions of the deprecated
frontend `newsFetcher` module — `fetchArticlesForLeader`,
`buildPostsFromArticles`, `fetchLiveDashboard` — throws an error
unconditionally, for all inputs; the frontend news-fetching path can never
return data. -/
theorem newsFetcher_always_throws :
    ∀ u : Unit,
      (∃ e, fetchArticlesForLeader u = .error e)
        ∧ (∃ e, buildPostsFromArticles u = .error e)
        ∧ (∃ e, fetchLiveDashboard u = .error e) :=
  fun _ => ⟨⟨_, rfl⟩, ⟨_, rfl⟩, ⟨_, rfl⟩⟩

/-- C5: in the retrying HTTP client, a 429 response carrying `Retry-After`
makes the next delay equal the `Retry-After` value (when it is within
`maxDelay`), never exceeding `maxDelay`, and overrides the exponential
backoff formula: the delay is independent of the attempt number and of the
jitter sample, even when the computed backoff would be smaller. -/
theorem retryAfter_overrides_backoff :
    ∀ (o : RetryOptions) (attempt ra u : Nat),
      (ra ≤ o.maxDelayMs → nextRetryDelay o attempt (some ra) u = ra)
        ∧ nextRetryDelay o attempt (some ra) u ≤ o.maxDelayMs
        ∧ nextRetryDelay o attempt (some ra) u = nextRetryDelay o 0 (some ra) 0 := by
  intro o attempt ra u
  refine ⟨fun h => ?_, ?_, rfl⟩
  · simpa [nextRetryDelay] using Nat.min_eq_right h
  · simp [nextRetryDelay]

/-- C5 witness: `Retry-After: 10` (10000 ms) at attempt 0, where the
exponential formula computes only 500 ms, still yields a 10000 ms delay. -/
theorem retryAfter_overrides_backoff_witness :
    nextRetryDelay defaultRetryOptions 0 (some 10000) 0 = 10000
      ∧ backoffDelay defaultRetryOptions 0 = 500 :=
  ⟨(retryAfter_overrides_backoff defaultRetryOptions 0 10000 0).1 (by decide), by decide⟩

/-- C4: while the breaker is `open` and `openedAt + cooldown` has not yet
elapsed, every request is rejected with `CircuitOpenError` and the wrapped
client is never invoked (the outcome is independent of what the client would
have done), leaving the breaker unchanged. -/
theorem circuitOpen_rejects_without_network :
    ∀ (b : Breaker) (now : Nat) (clientSuccess : Bool),
      b.state = .opened → now < b.openedAt + b.cooldown →
      b.call now clientSuccess = (.circuitOpenError, b) := by
  intro b now cs hs ht
  simp [Breaker.call, Breaker.tryAcquire, hs, Nat.not_le.mpr ht]

/-- C4 witness: with `failureThreshold = 3`, after 3 consecutive failures at
time 0 the breaker is `open`, and the immediate 4th call (time 1, cooldown
300) raises `CircuitOpenError` — even though the client would have
succeeded, it is not consulted. -/
theorem circuitOpen_rejects_without_network_witness :
    ((Breaker.init 3 300).failMany 0 3).state = .opened
      ∧ ((Breaker.init 3 300).failMany 0 3).call 1 true
          = (.circuitOpenError, (Breaker.init 3 300).failMany 0 3) :=
  ⟨by decide, circuitOpen_rejects_without_network _ 1 true (by decide) (by decide)⟩

/-- C6: the embed-token round trip. For every MAC, dashboard, origin set,
ttl and origin `o ∈ origins`: validating `issue`'s token at any time before
`ttl` seconds have elapsed returns the claims, and validating once `ttl`
seconds have elapsed fails specifically with the expiry error. -/
theorem embedToken_roundtrip :
    ∀ (mac : EmbedClaims → String) (d : String) (origins : List String)
      (ttl now dt : Nat) (o : String), o ∈ origins →
      (dt < ttl →
        validate mac (issue mac d origins ttl now).token o (now + dt)
          = .ok ⟨d, origins, now, now + ttl⟩)
        ∧ (ttl ≤ dt →
          validate mac (issue mac d origins ttl now).token o (now + dt)
            = .error .expired) := by
  intro mac d origins ttl now dt o ho
  constructor
  · intro h
    simp [validate, issue, ho, Nat.add_lt_add_left h now]
  · intro h
    simp [validate, issue, Nat.not_lt.mpr (Nat.add_le_add_left h now)]

/-- C6 witness: a token issued with `ttlSeconds = 1` at time 0, validated at
time 2 (2-second clock advance) for an allowed origin, is rejected with the
expiry error. -/
theorem embedToken_roundtrip_witness :
    validate (fun _ => "s") (issue (fun _ => "s") "dash" ["https://ok.example"] 1 0).token
        "https://ok.example" 2
      = .error .expired :=
  (embedToken_roundtrip (fun _ => "s") "dash" ["https://ok.example"] 1 0 2 "https://ok.example"
      (by simp)).2 (by decide)

/-- C1: an ingestion pass advances the checkpoint only if every validated,
non-duplicate item of the batch was persisted (all of `classify`'s accepted
items are in the persisted store whenever the checkpoint changed, and the
pass reported success); on any persistence or checkpoint-storage failure the
checkpoint is left unchanged. -/
theorem ingest_checkpoint_after_persist :
    ∀ (s : StreamState) (raws : List RawItem) (newCursor : String)
      (persistOk checkpointOk : Bool),
      (persistOk = false ∨ checkpointOk = false →
        (ingest s raws newCursor false persistOk checkpointOk).2.checkpoint = s.checkpoint)
        ∧ ((ingest s raws newCursor false persistOk checkpointOk).2.checkpoint ≠ s.checkpoint →
          (ingest s raws newCursor false persistOk checkpointOk).1
              = .ok ⟨(classify s.persisted raws).newItems.length,
                  (classify s.persisted raws).failed, (classify s.persisted raws).skipped⟩
            ∧ ∀ i ∈ (classify s.persisted raws).newItems,
                i ∈ (ingest s raws newCursor false persistOk checkpointOk).2.persisted) := by
  intro s raws newCursor persistOk checkpointOk
  constructor
  · intro hor
    rcases hor with h | h
    · subst h; simp [ingest]
    · subst h; cases persistOk <;> simp [ingest]
  · intro hne
    cases persistOk
    · exact absurd (by simp [ingest]) hne
    · cases checkpointOk
      · exact absurd (by simp [ingest]) hne
      · refine ⟨by simp [ingest], fun i hi => ?_⟩
        simp [ingest]
        exact Or.inr hi

/-- C1 witness: with the persistence step failing, the checkpoint stays at
its prior value. -/
theorem ingest_checkpoint_after_persist_witness :
    (ingest ⟨some "c0", []⟩ [⟨some "e1", "x", some 5, some "hello"⟩] "c1"
        false false true).2.checkpoint = some "c0" :=
  (ingest_checkpoint_after_persist ⟨some "c0", []⟩ [⟨some "e1", "x", some 5, some "hello"⟩]
      "c1" false true).1 (Or.inl rfl)

lemma existsByExternalId_append (l₁ l₂ : List Item) (pl eid : String) :
    existsByExternalId (l₁ ++ l₂) pl eid
      = (existsByExternalId l₁ pl eid || existsByExternalId l₂ pl eid) := by
  simp [existsByExternalId, List.any_append]

lemma classify_fold_fresh (p : List Item) :
    ∀ (raws : List RawItem) (acc : BatchSplit),
      (∀ r ∈ raws, ∃ i, r.validate = some i
          ∧ existsByExternalId p i.platform i.externalId = false
          ∧ existsByExternalId acc.newItems i.platform i.externalId = false)
      → ((raws.filterMap RawItem.validate).map Item.key).Nodup
      → (raws.foldl (classifyStep p) acc).newItems.length = acc.newItems.length + raws.length
        ∧ (raws.foldl (classifyStep p) acc).failed = acc.failed
        ∧ (raws.foldl (classifyStep p) acc).skipped = acc.skipped := by
  intro raws
  induction raws with
  | nil => intro acc _ _; simp
  | cons r rest ih =>
    intro acc hfresh hnod
    obtain ⟨i, hvi, hp, hacc⟩ := hfresh r (List.mem_cons_self _ _)
    have hfm : (r :: rest).filterMap RawItem.validate = i :: rest.filterMap RawItem.validate := by
      simp [List.filterMap_cons, hvi]
    rw [hfm, List.map_cons, List.nodup_cons] at hnod
    obtain ⟨hkey, hnod'⟩ := hnod
    have hstep : classifyStep p acc r = ⟨acc.newItems ++ [i], acc.failed, acc.skipped⟩ := by
      simp [classifyStep, hvi, hp, hacc]
    have hfresh' : ∀ r' ∈ rest, ∃ i', r'.validate = some i'
        ∧ existsByExternalId p i'.platform i'.externalId = false
        ∧ existsByExternalId (acc.newItems ++ [i]) i'.platform i'.externalId = false := by
      intro r' hr'
      obtain ⟨i', hvi', hp', hacc'⟩ := hfresh r' (List.mem_cons_of_mem _ hr')
      refine ⟨i', hvi', hp', ?_⟩
      rw [existsByExternalId_append, hacc', Bool.false_or]
      simp only [existsByExternalId, List.any_cons, List.any_nil, Bool.or_false,
        Bool.and_eq_false_iff]
      rcases Decidable.em (i.platform = i'.platform ∧ i.externalId = i'.externalId) with he | he
      · exfalso
        apply hkey
        have hmem : i' ∈ rest.filterMap RawItem.validate :=
          List.mem_filterMap.mpr ⟨r', hr', hvi'⟩
        have : i.key = i'.key := by simp [Item.key, he.1, he.2]
        rw [this]
        exact List.mem_map_of_mem _ hmem
      · rcases Decidable.not_and_iff_or_not.mp he with hne | hne
        · exact Or.inl (beq_eq_false_iff_ne.mpr hne)
        · exact Or.inr (beq_eq_false_iff_ne.mpr hne)
    rw [List.foldl_cons, hstep]
    obtain ⟨h1, h2, h3⟩ := ih ⟨acc.newItems ++ [i], acc.failed, acc.skipped⟩ hfresh' hnod'
    refine ⟨?_, h2, h3⟩
    rw [h1]
    simp [Nat.add_assoc, Nat.add_comm 1 rest.length]

/-- C7: a `dryRun = true` ingestion pass leaves the stream state (checkpoint
and persisted items) exactly unchanged, returns the classification counts,
and on a valid, fresh, internally duplicate-free batch those counts are
`(processed = N, failed = 0, skipped = 0)` with `N` the batch length. -/
theorem ingest_dryRun_frame :
    ∀ (s : StreamState) (raws : List RawItem) (newCursor : String)
      (persistOk checkpointOk : Bool),
      (ingest s raws newCursor true persistOk checkpointOk).2 = s
        ∧ (ingest s raws newCursor true persistOk checkpointOk).1
            = .ok ⟨(classify s.persisted raws).newItems.length,
                (classify s.persisted raws).failed, (classify s.persisted raws).skipped⟩
        ∧ ((∀ r ∈ raws, ∃ i, r.validate = some i
              ∧ existsByExternalId s.persisted i.platform i.externalId = false)
            → ((raws.filterMap RawItem.validate).map Item.key).Nodup
            → (ingest s raws newCursor true persistOk checkpointOk).1
                = .ok ⟨raws.length, 0, 0⟩) := by
  intro s raws newCursor persistOk checkpointOk
  refine ⟨by simp [ingest], by simp [ingest], fun hfresh hnod => ?_⟩
  obtain ⟨h1, h2, h3⟩ := classify_fold_fresh s.persisted raws ⟨[], 0, 0⟩
    (fun r hr => by
      obtain ⟨i, hv, hpfr⟩ := hfresh r hr
      exact ⟨i, hv, hpfr, by simp [existsByExternalId]⟩)
    hnod
  simp only [classify] at h1 h2 h3
  simp [ingest, classify, h1, h2, h3]

/-- C7 witness: a dry run over a valid fresh batch of two items returns
`(2, 0, 0)` and leaves checkpoint and persisted store unchanged. -/
theorem ingest_dryRun_frame_witness :
    (ingest ⟨some "c0", []⟩
        [⟨some "e1", "x", some 1, some "a"⟩, ⟨some "e2", "x", some 2, some "b"⟩]
        "c1" true true true).1 = .ok ⟨2, 0, 0⟩
      ∧ (ingest ⟨some "c0", []⟩
          [⟨some "e1", "x", some 1, some "a"⟩, ⟨some "e2", "x", some 2, some "b"⟩]
          "c1" true true true).2 = ⟨some "c0", []⟩ := by
  refine ⟨(ingest_dryRun_frame ⟨some "c0", []⟩
      [⟨some "e1", "x", some 1, some "a"⟩, ⟨some "e2", "x", some 2, some "b"⟩]
      "c1" true true).2.2 ?_ (by decide),
    (ingest_dryRun_frame ⟨some "c0", []⟩
      [⟨some "e1", "x", some 1, some "a"⟩, ⟨some "e2", "x", some 2, some "b"⟩]
      "c1" true true).1⟩
  intro r hr
  simp only [List.mem_cons, List.not_mem_nil, or_false] at hr
  rcases hr with rfl | rfl
  · exact ⟨⟨"e1", "x", 1, "a"⟩, rfl, by decide⟩
  · exact ⟨⟨"e2", "x", 2, "b"⟩, rfl, by decide⟩

lemma failMany_closed (T cd t : Nat) :
    ∀ k, k < T → (Breaker.init T cd).failMany t k = ⟨T, cd, .closed, k, 0⟩ := by
  intro k
  induction k with
  | zero => intro _; rfl
  | succ k ih =>
    intro hk
    rw [Breaker.failMany, ih (Nat.lt_of_succ_lt hk)]
    simp [Breaker.call, Breaker.tryAcquire, Breaker.onFailure, Nat.not_le.mpr hk]

lemma failMany_opens (T cd t : Nat) (h : 0 < T) :
    (Breaker.init T cd).failMany t T = ⟨T, cd, .opened, T, t⟩ := by
  obtain ⟨T', rfl⟩ : ∃ T', T = T' + 1 := ⟨T - 1, (Nat.succ_pred_eq_of_pos h).symm⟩
  rw [Breaker.failMany, failMany_closed (T' + 1) cd t T' (Nat.lt_succ_self T')]
  simp [Breaker.call, Breaker.tryAcquire, Breaker.onFailure]

/-- C3: the breaker follows the closed/open/half-open machine.  Starting
closed with failure counter 0, the first `failureThreshold - 1` consecutive
failures leave it closed counting them, and exactly `failureThreshold`
consecutive failures open it recording `openedAt`; once `cooldown` has
elapsed since `openedAt` exactly one trial is admitted (a concurrent second
acquire while half-open is rejected); a successful trial closes the breaker
with the counter reset to 0 and a failed trial re-opens it with `openedAt`
reset to the current time.  The default threshold is 5 (cooldown 5 min). -/
theorem circuitBreaker_state_machine :
    ∀ (T cd t now : Nat) (b : Breaker), 0 < T →
      (∀ k, k < T → ((Breaker.init T cd).failMany t k).state = .closed
          ∧ ((Breaker.init T cd).failMany t k).failures = k)
        ∧ ((Breaker.init T cd).failMany t T).state = .opened
        ∧ ((Breaker.init T cd).failMany t T).openedAt = t
        ∧ (b.state = .opened → b.openedAt + b.cooldown ≤ now →
            b.tryAcquire now = (true, { b with state := .halfOpen })
              ∧ ({ b with state := .halfOpen } : Breaker).tryAcquire now
                  = (false, { b with state := .halfOpen })
              ∧ b.call now true = (.completed true, { b with state := .closed, failures := 0 })
              ∧ b.call now false
                  = (.completed false, { b with state := .opened, openedAt := now }))
        ∧ defaultBreaker.failureThreshold = 5 ∧ defaultBreaker.cooldown = 300
        ∧ defaultBreaker.state = .closed ∧ defaultBreaker.failures = 0 := by
  intro T cd t now b hT
  refine ⟨fun k hk => by rw [failMany_closed T cd t k hk]; exact ⟨rfl, rfl⟩,
    by rw [failMany_opens T cd t hT], by rw [failMany_opens T cd t hT],
    fun hs hcool => ?_, rfl, rfl, rfl, rfl⟩
  refine ⟨by simp [Breaker.tryAcquire, hs, hcool],
    by simp [Breaker.tryAcquire],
    by simp [Breaker.call, Breaker.tryAcquire, Breaker.onSuccess, hs, hcool],
    by simp [Breaker.call, Breaker.tryAcquire, Breaker.onFailure, hs, hcool]⟩

/-- C3 witness: at the default threshold 5, four consecutive failures leave
the breaker closed and the fifth opens it; the recovery transitions are
instantiated on an open breaker whose cooldown has elapsed. -/
theorem circuitBreaker_state_machine_witness :
    ((Breaker.init 5 300).failMany 7 4).state = .closed
      ∧ ((Breaker.init 5 300).failMany 7 5).state = .opened
      ∧ (⟨5, 300, .opened, 5, 7⟩ : Breaker).call 400 true
          = (.completed true, ⟨5, 300, .closed, 0, 7⟩)
      ∧ (⟨5, 300, .opened, 5, 7⟩ : Breaker).call 400 false
          = (.completed false, ⟨5, 300, .opened, 5, 400⟩) :=
  ⟨((circuitBreaker_state_machine 5 300 7 0 defaultBreaker (by decide)).1 4 (by decide)).1,
    (circuitBreaker_state_machine 5 300 7 0 defaultBreaker (by decide)).2.1,
    ((circuitBreaker_state_machine 5 300 7 400 ⟨5, 300, .opened, 5, 7⟩ (by decide)).2.2.2.1
      rfl (by decide)).2.2.1,
    ((circuitBreaker_state_machine 5 300 7 400 ⟨5, 300, .opened, 5, 7⟩ (by decide)).2.2.2.1
      rfl (by decide)).2.2.2⟩

lemma countKey_append (l₁ l₂ : List Item) (k : String × String) :
    countKey (l₁ ++ l₂) k = countKey l₁ k + countKey l₂ k := by
  simp [countKey, List.filter_append]

lemma countKey_singleton (i : Item) (k : String × String) :
    countKey [i] k = if i.key = k then 1 else 0 := by
  by_cases h : i.key = k <;> simp [countKey, List.filter_cons, h]

lemma existsByExternalId_eq_false_iff (l : List Item) (k : String × String) :
    existsByExternalId l k.1 k.2 = false ↔ countKey l k = 0 := by
  simp only [existsByExternalId, countKey, List.any_eq_false, List.length_eq_zero,
    List.filter_eq_nil_iff, Bool.and_eq_true, beq_iff_eq, Item.key, Prod.mk.injEq,
    not_and, decide_eq_true_eq]
  constructor
  · intro h a ha he
    exact h a ha (congrArg Prod.fst he) (congrArg Prod.snd he)
  · intro h x hx h1 h2
    exact h x hx (Prod.ext_iff.mpr ⟨h1, h2⟩)

lemma classifyStep_key_bound (p : List Item) (k : String × String) (acc : BatchSplit)
    (r : RawItem)
    (h1 : countKey acc.newItems k ≤ 1)
    (h2 : existsByExternalId p k.1 k.2 = true → countKey acc.newItems k = 0) :
    countKey (classifyStep p acc r).newItems k ≤ 1
      ∧ (existsByExternalId p k.1 k.2 = true
          → countKey (classifyStep p acc r).newItems k = 0) := by
  unfold classifyStep
  cases hv : r.validate with
  | none => exact ⟨h1, h2⟩
  | some i =>
    cases hp : existsByExternalId p i.platform i.externalId with
    | true => simp [hp]; exact ⟨h1, h2⟩
    | false =>
      cases ha : existsByExternalId acc.newItems i.platform i.externalId with
      | true => simp [hp, ha]; exact ⟨h1, h2⟩
      | false =>
        simp only [hp, ha, Bool.or_self, Bool.false_eq_true, if_false]
        rw [countKey_append, countKey_singleton]
        by_cases hik : i.key = k
        · have hk1 : k.1 = i.platform := by rw [← hik]; rfl
          have hk2 : k.2 = i.externalId := by rw [← hik]; rfl
          have hacc0 : countKey acc.newItems k = 0 := by
            rw [← existsByExternalId_eq_false_iff, hk1, hk2]; exact ha
          refine ⟨by simp [hik, hacc0], fun hpk => ?_⟩
          rw [hk1, hk2] at hpk
          rw [hpk] at hp
          cases hp
        · simp only [hik, if_false, Nat.add_zero]
          exact ⟨h1, h2⟩

lemma classify_fold_key_bound (p : List Item) (k : String × String) :
    ∀ (raws : List RawItem) (acc : BatchSplit),
      countKey acc.newItems k ≤ 1
      → (existsByExternalId p k.1 k.2 = true → countKey acc.newItems k = 0)
      → countKey (raws.foldl (classifyStep p) acc).newItems k ≤ 1
        ∧ (existsByExternalId p k.1 k.2 = true
            → countKey (raws.foldl (classifyStep p) acc).newItems k = 0) := by
  intro raws
  induction raws with
  | nil => intro acc h1 h2; exact ⟨h1, h2⟩
  | cons r rest ih =>
    intro acc h1 h2
    rw [List.foldl_cons]
    obtain ⟨h1', h2'⟩ := classifyStep_key_bound p k acc r h1 h2
    exact ih _ h1' h2'

lemma ingest_key_bound (s : StreamState) (raws : List RawItem) (newCursor : String)
    (dryRun persistOk checkpointOk : Bool) (k : String × String)
    (h : countKey s.persisted k ≤ 1) :
    countKey (ingest s raws newCursor dryRun persistOk checkpointOk).2.persisted k ≤ 1 := by
  have hcl := classify_fold_key_bound s.persisted k raws ⟨[], 0, 0⟩
    (by simp [countKey]) (fun _ => by simp [countKey])
  have hkey : countKey (s.persisted ++ (classify s.persisted raws).newItems) k ≤ 1 := by
    rw [countKey_append]
    cases hex : existsByExternalId s.persisted k.1 k.2 with
    | false =>
      rw [(existsByExternalId_eq_false_iff s.persisted k).mp hex, Nat.zero_add]
      exact hcl.1
    | true =>
      rw [show (classify s.persisted raws).newItems
          = (raws.foldl (classifyStep s.persisted) ⟨[], 0, 0⟩).newItems from rfl,
        hcl.2 hex, Nat.add_zero]
      exact h
  cases dryRun
  · cases persistOk
    · simpa [ingest] using h
    · cases checkpointOk <;> simpa [ingest] using hkey
  · simpa [ingest] using h

/-- C2: ingestion is idempotent per (platform, external ID) key: if the
persisted store holds at most one item for a key, then after any sequence of
ingestion passes — dry-run or not, with or without storage failures, and in
particular re-fetching the same page after a crash before checkpoint
advance — it still holds at most one item for that key. -/
theorem ingest_idempotent_per_key :
    ∀ (ps : List PassInput) (s : StreamState) (k : String × String),
      countKey s.persisted k ≤ 1 → countKey (runPasses s ps).persisted k ≤ 1 := by
  intro ps
  induction ps with
  | nil => intro s k h; exact h
  | cons p rest ih =>
    intro s k h
    rw [runPasses, List.foldl_cons]
    exact ih _ k (ingest_key_bound s p.raws p.newCursor p.dryRun p.persistOk p.checkpointOk k h)

/-- The two-item page of the C2 crash/retry scenario. -/
def crashRetryPasses : List PassInput :=
  [⟨[⟨some "a", "x", some 1, some "ca"⟩, ⟨some "b", "x", some 2, some "cb"⟩], "c1",
      false, true, false⟩,
   ⟨[⟨some "a", "x", some 1, some "ca"⟩, ⟨some "b", "x", some 2, some "cb"⟩], "c1",
      false, true, true⟩]

/-- C2 witness: ingesting the same two-item page twice — the first pass
persists but crashes before the checkpoint advance, the second re-fetches the
same page — leaves the persisted count at 2, not 4, with at most one item
per key. -/
theorem ingest_idempotent_per_key_witness :
    (runPasses ⟨none, []⟩ crashRetryPasses).persisted.length = 2
      ∧ countKey (runPasses ⟨none, []⟩ crashRetryPasses).persisted ("x", "a") ≤ 1
      ∧ countKey (runPasses ⟨none, []⟩ crashRetryPasses).persisted ("x", "b") ≤ 1 :=
  ⟨by decide,
    ingest_idempotent_per_key crashRetryPasses ⟨none, []⟩ ("x", "a") (by decide),
    ingest_idempotent_per_key crashRetryPasses ⟨none, []⟩ ("x", "b") (by decide)⟩

lemma sortPosts_sorted (l : List SocialMediaPost) : SortedNewestFirst (sortPosts l) :=
  List.sorted_insertionSort newestFirst l

/-- C8: every hook operation that updates the `posts` state keeps it sorted
newest-first: `loadDashboard` and `fetchPostsForLeader` store `sortPosts` of
the list, `removeLeader` only filters (which preserves sortedness); hence the
posts list after every sequence of completed hook operations is
newest-first. -/
theorem hookPosts_sorted :
    ∀ (posts : List SocialMediaPost) (op : HookOp) (ops : List HookOp),
      (SortedNewestFirst posts → SortedNewestFirst (applyOp posts op))
        ∧ SortedNewestFirst (hookPosts ops) := by
  have happly : ∀ posts op, SortedNewestFirst posts → SortedNewestFirst (applyOp posts op) := by
    intro posts op h
    cases op with
    | loadDashboard f => exact sortPosts_sorted f
    | fetchPostsForLeader lid f => exact sortPosts_sorted _
    | removeLeader lid => exact List.Pairwise.sublist (List.filter_sublist posts) h
  have hfold : ∀ (ops : List HookOp) (posts : List SocialMediaPost),
      SortedNewestFirst posts → SortedNewestFirst (ops.foldl applyOp posts) := by
    intro ops
    induction ops with
    | nil => intro posts h; exact h
    | cons op rest ih =>
      intro posts h
      rw [List.foldl_cons]
      exact ih _ (happly posts op h)
  intro posts op ops
  exact ⟨happly posts op, hfold ops [] List.Pairwise.nil⟩

/-- C8 witness: removing a leader from a concrete newest-first list yields a
newest-first list. -/
theorem hookPosts_sorted_witness :
    SortedNewestFirst (applyOp [⟨"p2", "l1", 5⟩, ⟨"p1", "l2", 3⟩] (.removeLeader "l2")) :=
  (hookPosts_sorted [⟨"p2", "l1", 5⟩, ⟨"p1", "l2", 3⟩] (.removeLeader "l2") []).1
    (by simp [SortedNewestFirst, List.sorted_cons, newestFirst])

lemma replaceDigit_good (c : Char) :
    (isAsciiDigit c = false → replaceDigit c = c)
      ∧ isAsciiDigit (replaceDigit c) = false := by
  by_cases h0 : c = '0'
  · exact h0 ▸ ⟨fun h => absurd h (by decide), by decide⟩
  by_cases h1 : c = '1'
  · exact h1 ▸ ⟨fun h => absurd h (by decide), by decide⟩
  by_cases h2 : c = '2'
  · exact h2 ▸ ⟨fun h => absurd h (by decide), by decide⟩
  by_cases h3 : c = '3'
  · exact h3 ▸ ⟨fun h => absurd h (by decide), by decide⟩
  by_cases h4 : c = '4'
  · exact h4 ▸ ⟨fun h => absurd h (by decide), by decide⟩
  by_cases h5 : c = '5'
  · exact h5 ▸ ⟨fun h => absurd h (by decide), by decide⟩
  by_cases h6 : c = '6'
  · exact h6 ▸ ⟨fun h => absurd h (by decide), by decide⟩
  by_cases h7 : c = '7'
  · exact h7 ▸ ⟨fun h => absurd h (by decide), by decide⟩
  by_cases h8 : c = '8'
  · exact h8 ▸ ⟨fun h => absurd h (by decide), by decide⟩
  by_cases h9 : c = '9'
  · exact h9 ▸ ⟨fun h => absurd h (by decide), by decide⟩
  have hdig : isAsciiDigit c = false := by
    simp [isAsciiDigit, DEVANAGARI_DIGITS, Ne.symm h0, Ne.symm h1, Ne.symm h2, Ne.symm h3,
      Ne.symm h4, Ne.symm h5, Ne.symm h6, Ne.symm h7, Ne.symm h8, Ne.symm h9]
  have hrc : replaceDigit c = c := by
    simp [replaceDigit, DEVANAGARI_DIGITS, List.lookup, beq_eq_false_iff_ne.mpr h0,
      beq_eq_false_iff_ne.mpr h1, beq_eq_false_iff_ne.mpr h2, beq_eq_false_iff_ne.mpr h3,
      beq_eq_false_iff_ne.mpr h4, beq_eq_false_iff_ne.mpr h5, beq_eq_false_iff_ne.mpr h6,
      beq_eq_false_iff_ne.mpr h7, beq_eq_false_iff_ne.mpr h8, beq_eq_false_iff_ne.mpr h9]
  exact ⟨fun _ => hrc, by rw [hrc]; exact hdig⟩

lemma toDevanagariDigits_no_digit (s : List Char) :
    ∀ c ∈ toDevanagariDigits s, isAsciiDigit c = false := by
  intro c hc
  obtain ⟨c0, _, rfl⟩ := List.mem_map.mp hc
  exact (replaceDigit_good c0).2

lemma month_no_digit (n : Nat) :
    ∀ c ∈ HINDI_MONTHS.getD n [], isAsciiDigit c = false := by
  match n with
  | 0 => decide
  | 1 => decide
  | 2 => decide
  | 3 => decide
  | 4 => decide
  | 5 => decide
  | 6 => decide
  | 7 => decide
  | 8 => decide
  | 9 => decide
  | 10 => decide
  | 11 => decide
  | n + 12 =>
    intro c hc
    rw [show HINDI_MONTHS.getD (n + 12) [] = [] from by
      simp [HINDI_MONTHS, List.getD]] at hc
    cases hc

/-- C9: `toDevanagariDigits` maps each ASCII digit to the corresponding
Devanagari digit of the table, leaves every non-digit character unchanged,
and preserves the string's length; consequently `format_date_in_hindi` never
produces an ASCII digit. -/
theorem toDevanagariDigits_spec :
    ∀ (s : List Char) (d : JsDate),
      (toDevanagariDigits s).length = s.length
        ∧ (∀ c ∈ s, isAsciiDigit c = false → replaceDigit c = c)
        ∧ (∀ kv ∈ DEVANAGARI_DIGITS, replaceDigit kv.1 = kv.2)
        ∧ (∀ c ∈ toDevanagariDigits s, isAsciiDigit c = false)
        ∧ (∀ c ∈ format_date_in_hindi d, isAsciiDigit c = false) := by
  intro s d
  refine ⟨List.length_map _ _, fun c _ h => (replaceDigit_good c).1 h, by decide,
    toDevanagariDigits_no_digit s, ?_⟩
  intro c hc
  simp only [format_date_in_hindi, List.append_assoc, List.mem_append,
    List.mem_singleton] at hc
  rcases hc with hc | rfl | hc | rfl | hc
  · exact toDevanagariDigits_no_digit _ c hc
  · decide
  · exact month_no_digit d.getMonth c hc
  · decide
  · exact toDevanagariDigits_no_digit _ c hc

/-- C9 witness: the formatter output for 15 August 2025 contains no ASCII
digit, a space is left unchanged, and lengths are preserved on a concrete
string. -/
theorem toDevanagariDigits_spec_witness :
    (toDevanagariDigits "15 अगस्त 2025".data).length = "15 अगस्त 2025".data.length
      ∧ replaceDigit ' ' = ' '
      ∧ (∀ c ∈ format_date_in_hindi ⟨15, 7, 2025⟩, isAsciiDigit c = false) :=
  ⟨(toDevanagariDigits_spec "15 अगस्त 2025".data ⟨15, 7, 2025⟩).1,
    (toDevanagariDigits_spec " ".data ⟨15, 7, 2025⟩).2.1 ' ' (by decide) (by decide),
    (toDevanagariDigits_spec "15 अगस्त 2025".data ⟨15, 7, 2025⟩).2.2.2.2⟩

end Amber
